import Mathlib

/-!
Verification of the LazyDS4 input-translation core
(`src/utils/input_translator.py`) against its specification.

The Python class `InputTranslator` is shallowly embedded: its mutable
state becomes the structure `TranslatorState`, each method becomes a pure
Lean function on that state, Python `float` arithmetic is modelled by `ℚ`,
raw HID report bytes by `ℕ`, and the signed 16-bit XInput fields by `ℤ`.
Wall-clock time (`time.time()`) is passed in explicitly as a rational
`now` argument; Qt signal emissions are dropped (the payload of the
battery signal is modelled by the pure function `extractBatteryInfo`).
-/

namespace LazyDS4

/-- Python `int()` truncation: truncate a rational toward zero. -/
def ratTrunc (q : ℚ) : ℤ := if q < 0 then -(⌊-q⌋) else ⌊q⌋

/-- One calibration entry, a dict with keys min, max and center, as
stored in `self.calibration_data` per axis. -/
structure CalibEntry where
  min : ℕ
  max : ℕ
  center : ℕ
  deriving DecidableEq

/-- The sentinel entry with min 255, max 0, center 128 that `__init__`
and `start_calibration` install for every axis. -/
def sentinelEntry : CalibEntry := ⟨255, 0, 128⟩

/-- The `scaled = …` computation of `_normalize_stick` (after the range
denominators have been clamped to at least 1): scale the signed offset
from center by the positive range above center and by the negative range
below it. -/
def stickScaled (v center negRange posRange : ℤ) : ℚ :=
  if center < v then (((v - center : ℤ) : ℚ) / ((posRange : ℤ) : ℚ)) * 32767
  else if v < center then (((v - center : ℤ) : ℚ) / ((negRange : ℤ) : ℚ)) * 32767
  else 0

/-- The adaptive deadzone
`max(4000, 2000 * (abs(value - center) / max(neg_range, pos_range)))`. -/
def stickDeadzone (v center negRange posRange : ℤ) : ℚ :=
  max 4000 (2000 * (((|v - center| : ℤ) : ℚ) / ((max negRange posRange : ℤ) : ℚ)))

/-- The zeroing step `if abs(scaled) < adaptive_deadzone: scaled = 0`. -/
def applyDeadzone (v center negRange posRange : ℤ) (scaled : ℚ) : ℚ :=
  if |scaled| < stickDeadzone v center negRange posRange then 0 else scaled

/-- The final clamp `max(-32767, min(32767, scaled))`. -/
def clampQ (q : ℚ) : ℚ := max (-32767) (min 32767 q)

/-- `InputTranslator._normalize_stick(value, axis, invert)`, with the
calibration entry of the axis passed explicitly instead of looked up by
the axis key. -/
def normalizeStick (value : ℕ) (calib : CalibEntry) (invert : Bool) : ℤ :=
  let center : ℤ := (calib.center : ℤ)
  let negRange : ℤ := max ((calib.center : ℤ) - (calib.min : ℤ)) 1
  let posRange : ℤ := max ((calib.max : ℤ) - (calib.center : ℤ)) 1
  let scaled := stickScaled (value : ℤ) center negRange posRange
  let scaled2 := applyDeadzone (value : ℤ) center negRange posRange scaled
  let finalValue := ratTrunc (clampQ scaled2)
  if invert then -finalValue else finalValue

/-- The normalization formula of the spec (section 4.2), written
directly from its words for a center-128 calibration entry: above center scale
`(value-center)/(max-center)` by 32767, below center scale
`(value-center)/(center-min)` by 32767, zero at center, with each range
denominator clamped to a minimum of 1; zero the result if its magnitude
is below the adaptive deadzone `max(4000, 2000*|value-center|/max(negRange,posRange))`;
clamp to `[-32767, 32767]` and truncate to an integer; negate if `invert`. -/
def specNormalize (v mn mx : ℕ) (invert : Bool) : ℤ :=
  let center : ℤ := ((128 : ℕ) : ℤ)
  let negRange : ℤ := max (center - (mn : ℤ)) 1
  let posRange : ℤ := max ((mx : ℤ) - center) 1
  let scaled : ℚ :=
    if center < (v : ℤ) then ((((v : ℤ) - center : ℤ) : ℚ) / ((posRange : ℤ) : ℚ)) * 32767
    else if (v : ℤ) < center then ((((v : ℤ) - center : ℤ) : ℚ) / ((negRange : ℤ) : ℚ)) * 32767
    else 0
  let deadzone : ℚ := max 4000 (2000 * (((|(v : ℤ) - center| : ℤ) : ℚ) / ((max negRange posRange : ℤ) : ℚ)))
  let zeroed : ℚ := if |scaled| < deadzone then 0 else scaled
  let clamped : ℤ := ratTrunc (max (-32767) (min 32767 zeroed))
  if invert then -clamped else clamped

/-- The XInput report structure built by `translate`. -/
structure XInputReport where
  wButtons : ℕ
  bLeftTrigger : ℕ
  bRightTrigger : ℕ
  sThumbLX : ℤ
  sThumbLY : ℤ
  sThumbRX : ℤ
  sThumbRY : ℤ
  deriving DecidableEq

/-- The zeroed report installed by `XInputReport.__init__`. -/
def initXInputReport : XInputReport := ⟨0, 0, 0, 0, 0, 0, 0⟩

/-- D-pad decoding of `translate`: the four `if dpad == …` lines, OR-ing
DPAD_UP=0x0001, DPAD_RIGHT=0x0008, DPAD_DOWN=0x0002, DPAD_LEFT=0x0004
into the button word. -/
def dpadFlags (dpad : ℕ) : ℕ :=
  (if dpad = 0 ∨ dpad = 1 ∨ dpad = 7 then 0x0001 else 0) |||
  (if dpad = 1 ∨ dpad = 2 ∨ dpad = 3 then 0x0008 else 0) |||
  (if dpad = 3 ∨ dpad = 4 ∨ dpad = 5 then 0x0002 else 0) |||
  (if dpad = 5 ∨ dpad = 6 ∨ dpad = 7 then 0x0004 else 0)

/-- Face-button decoding of `translate` from report byte 5. -/
def faceFlags (buttons : ℕ) : ℕ :=
  (if buttons &&& 0x10 ≠ 0 then 0x4000 else 0) |||
  (if buttons &&& 0x20 ≠ 0 then 0x1000 else 0) |||
  (if buttons &&& 0x40 ≠ 0 then 0x2000 else 0) |||
  (if buttons &&& 0x80 ≠ 0 then 0x8000 else 0)

/-- Shoulder-button decoding of `translate` from report byte 6. -/
def shoulderFlags (misc : ℕ) : ℕ :=
  (if misc &&& 0x01 ≠ 0 then 0x0100 else 0) |||
  (if misc &&& 0x02 ≠ 0 then 0x0200 else 0)

/-- Special-button (Share/Options/thumb-click) decoding of `translate`
from report byte 6. -/
def specialFlags (misc : ℕ) : ℕ :=
  (if misc &&& 0x10 ≠ 0 then 0x0020 else 0) |||
  (if misc &&& 0x20 ≠ 0 then 0x0010 else 0) |||
  (if misc &&& 0x40 ≠ 0 then 0x0040 else 0) |||
  (if misc &&& 0x80 ≠ 0 then 0x0080 else 0)

/-- Battery status payload of the `battery_status_updated` signal. -/
structure BatteryStatus where
  level : ℕ
  charging : Bool
  deriving DecidableEq

/-- The Bluetooth / default fallback half of `_extract_battery_info`:
reached whenever byte 30 is absent or zero. -/
def extractBatteryAlt (r : List ℕ) : BatteryStatus :=
  if 13 ≤ r.length then
    let batteryByte := r.getD 12 0
    if batteryByte ≠ 0 then ⟨max 0 (min 100 batteryByte), false⟩
    else ⟨50, false⟩
  else ⟨50, false⟩

/-- `InputTranslator._extract_battery_info`, returning the emitted
`(level, is_charging)` payload instead of emitting a signal. -/
def extractBatteryInfo (r : List ℕ) : BatteryStatus :=
  if 31 ≤ r.length then
    let batteryByte := r.getD 30 0
    if batteryByte ≠ 0 then
      let isCharging : Bool := batteryByte &&& 0x10 != 0
      let levelRaw := batteryByte &&& 0x0F
      let levelPercent :=
        if levelRaw ≤ 10 then max 0 (min 100 (levelRaw * 10))
        else max 0 (min 100 levelRaw)
      ⟨levelPercent, isCharging⟩
    else extractBatteryAlt r
  else extractBatteryAlt r

/-- The four stick axes, the keys of the Python dicts. -/
inductive Axis
  | lx
  | ly
  | rx
  | ry
  deriving DecidableEq

/-- Drift severity strings of `_calculate_drift_severity`. -/
inductive Severity
  | none
  | mild
  | moderate
  | severe
  deriving DecidableEq

/-- Python `min(samples)` on a nonempty list (0 as a dummy for `[]`). -/
def listMin : List ℕ → ℕ
  | [] => 0
  | h :: t => t.foldl Nat.min h

/-- Python `max(samples)` on a nonempty list (0 as a dummy for `[]`). -/
def listMax : List ℕ → ℕ
  | [] => 0
  | h :: t => t.foldl Nat.max h

/-- The per-axis body of `_analyze_drift_samples`: whether the sample
list of one axis is flagged as drifting (the `continue` for fewer than
10 samples yields `false`). -/
def driftFlagged (samples : List ℕ) : Bool :=
  if samples.length < 10 then false
  else
    let avgValue : ℚ := (samples.sum : ℚ) / (samples.length : ℚ)
    let rangeValue : ℕ := listMax samples - listMin samples
    let centerDeviation : ℚ := |avgValue - 128|
    let isConsistentlyOff : Bool := decide (8 < centerDeviation)
    let isStable : Bool := decide (rangeValue < 6)
    let samplesAboveCenter : ℕ := (samples.filter (fun s => 128 < s)).length
    let samplesBelowCenter : ℕ := (samples.filter (fun s => s < 128)).length
    let isConsistentDirection : Bool :=
      decide ((samples.length : ℚ) * (8 / 10) < ((max samplesAboveCenter samplesBelowCenter : ℕ) : ℚ))
    isConsistentlyOff && (isStable || isConsistentDirection)

/-- The full mutable state of an `InputTranslator` instance. -/
structure TranslatorState where
  xinputReport : XInputReport
  lastBatteryCheck : ℚ
  isCalibrating : Bool
  calibLx : CalibEntry
  calibLy : CalibEntry
  calibRx : CalibEntry
  calibRy : CalibEntry
  driftDetectionEnabled : Bool
  driftSampleCount : ℕ
  samplesLx : List ℕ
  samplesLy : List ℕ
  samplesRx : List ℕ
  samplesRy : List ℕ
  detectedLx : Bool
  detectedLy : Bool
  detectedRx : Bool
  detectedRy : Bool
  lastDriftCheck : ℚ
  driftCheckPerformed : Bool
  deriving DecidableEq

/-- `InputTranslator.__init__`. -/
def initialTranslator : TranslatorState where
  xinputReport := initXInputReport
  lastBatteryCheck := 0
  isCalibrating := false
  calibLx := sentinelEntry
  calibLy := sentinelEntry
  calibRx := sentinelEntry
  calibRy := sentinelEntry
  driftDetectionEnabled := true
  driftSampleCount := 0
  samplesLx := []
  samplesLy := []
  samplesRx := []
  samplesRy := []
  detectedLx := false
  detectedLy := false
  detectedRx := false
  detectedRy := false
  lastDriftCheck := 0
  driftCheckPerformed := false

/-- `InputTranslator.start_calibration` (the settling sleep and the
signal are dropped). -/
def startCalibration (st : TranslatorState) : TranslatorState :=
  { st with
    isCalibrating := true
    calibLx := sentinelEntry
    calibLy := sentinelEntry
    calibRx := sentinelEntry
    calibRy := sentinelEntry }

/-- The per-axis min/max update inside `calibrate`. -/
def calibStep (e : CalibEntry) (v : ℕ) : CalibEntry := ⟨min e.min v, max e.max v, e.center⟩

/-- Repeated per-axis calibration sampling starting from the sentinel
installed by `start_calibration`. -/
def calibFold (vs : List ℕ) : CalibEntry := vs.foldl calibStep sentinelEntry

/-- The severity count used by `_calculate_drift_severity`: the size of
the persistent `self.drift_detected_axes` set. -/
def detectedCount (st : TranslatorState) : ℕ :=
  (if st.detectedLx then 1 else 0) + (if st.detectedLy then 1 else 0) +
    (if st.detectedRx then 1 else 0) + (if st.detectedRy then 1 else 0)

/-- `InputTranslator._calculate_drift_severity` as a function of the size
of `self.drift_detected_axes`. -/
def severityOfCount (n : ℕ) : Severity :=
  if n = 0 then Severity.none
  else if n = 1 then Severity.mild
  else if n = 2 then Severity.moderate
  else Severity.severe

/-- The payload of the `drift_detected` signal. -/
structure DriftInfo where
  hasDrift : Bool
  driftAxes : List Axis
  severity : Severity
  deriving DecidableEq

/-- `InputTranslator._analyze_drift_samples`: returns the emitted
`drift_info` payload together with the updated state (samples cleared,
counter reset, `drift_detected_axes` grown by the newly flagged axes). -/
def analyzeDriftSamples (st : TranslatorState) : DriftInfo × TranslatorState :=
  let fLx := driftFlagged st.samplesLx
  let fLy := driftFlagged st.samplesLy
  let fRx := driftFlagged st.samplesRx
  let fRy := driftFlagged st.samplesRy
  let driftAxes : List Axis :=
    (if fLx then [Axis.lx] else []) ++ (if fLy then [Axis.ly] else []) ++
      (if fRx then [Axis.rx] else []) ++ (if fRy then [Axis.ry] else [])
  let st1 := { st with
    detectedLx := st.detectedLx || fLx
    detectedLy := st.detectedLy || fLy
    detectedRx := st.detectedRx || fRx
    detectedRy := st.detectedRy || fRy }
  let hasDrift := !driftAxes.isEmpty
  let severity := if hasDrift then severityOfCount (detectedCount st1) else Severity.none
  (⟨hasDrift, driftAxes, severity⟩,
    { st1 with
      samplesLx := []
      samplesLy := []
      samplesRx := []
      samplesRy := []
      driftSampleCount := 0 })

/-- `InputTranslator._check_for_drift`, with `time.time()` passed as
`now`. -/
def checkForDrift (st : TranslatorState) (now : ℚ) (r : List ℕ) : TranslatorState :=
  if r.length < 5 then st
  else if now - st.lastDriftCheck < 1 / 10 then st
  else
    let st := { st with lastDriftCheck := now }
    let buttonsPressed : Bool := (r.getD 5 0 != 0) || (r.getD 6 0 != 0)
    let triggersPressed : Bool := decide (10 < r.getD 8 0) || decide (10 < r.getD 9 0)
    if buttonsPressed || triggersPressed then
      { st with
        driftSampleCount := 0
        samplesLx := []
        samplesLy := []
        samplesRx := []
        samplesRy := [] }
    else
      let st := { st with
        samplesLx := st.samplesLx ++ [r.getD 1 0]
        samplesLy := st.samplesLy ++ [r.getD 2 0]
        samplesRx := st.samplesRx ++ [r.getD 3 0]
        samplesRy := st.samplesRy ++ [r.getD 4 0]
        driftSampleCount := st.driftSampleCount + 1 }
      if 30 ≤ st.driftSampleCount then
        { (analyzeDriftSamples st).2 with driftCheckPerformed := true }
      else st

/-- `InputTranslator.calibrate` (signal emissions dropped). -/
def calibrateFn (st : TranslatorState) (now : ℚ) (r : List ℕ) : TranslatorState :=
  if r.length < 5 then st
  else
    let st := { st with
      calibLx := calibStep st.calibLx (r.getD 1 0)
      calibLy := calibStep st.calibLy (r.getD 2 0)
      calibRx := calibStep st.calibRx (r.getD 3 0)
      calibRy := calibStep st.calibRy (r.getD 4 0) }
    if st.isCalibrating then st else checkForDrift st now r

/-- `InputTranslator.translate`: returns the updated state and the
returned value (`some` report, or `none` during calibration). The
battery signal emitted inside the throttle branch is modelled separately
by `extractBatteryInfo`; here only the throttle timestamp is updated. -/
def translateFn (st : TranslatorState) (now : ℚ) (r : List ℕ) : TranslatorState × Option XInputReport :=
  if r.length < 32 then (st, some st.xinputReport)
  else if st.isCalibrating then (calibrateFn st now r, none)
  else
    let st := if 2 < now - st.lastBatteryCheck then { st with lastBatteryCheck := now } else st
    let buttons := r.getD 5 0
    let misc := r.getD 6 0
    let dpad := buttons &&& 0x0F
    let report : XInputReport :=
      { wButtons := dpadFlags dpad ||| faceFlags buttons ||| shoulderFlags misc ||| specialFlags misc
        bLeftTrigger := r.getD 8 0
        bRightTrigger := r.getD 9 0
        sThumbLX := normalizeStick (r.getD 1 0) st.calibLx false
        sThumbLY := normalizeStick (r.getD 2 0) st.calibLy true
        sThumbRX := normalizeStick (r.getD 3 0) st.calibRx false
        sThumbRY := normalizeStick (r.getD 4 0) st.calibRy true }
    let st := { st with xinputReport := report }
    let st := if st.driftDetectionEnabled && !st.driftCheckPerformed then checkForDrift st now r else st
    (st, some st.xinputReport)

/-- The claim-side per-axis drift condition, written from the words of
the spec: at least 10 samples, mean more than 8 away from 128, and either a
range under 6 or strictly more than 80 percent of the samples on one
side of 128. -/
def driftCriteria (s : List ℕ) : Prop :=
  10 ≤ s.length ∧ 8 < |(s.sum : ℚ) / (s.length : ℚ) - 128| ∧
    (listMax s - listMin s < 6 ∨
      4 * s.length < 5 * max ((s.filter (fun v => 128 < v)).length) ((s.filter (fun v => v < 128)).length))

/-! Concrete fixtures used by witnesses and counterexamples. -/

/-- An idle 32-byte report: sticks centered at 128, D-pad released
(compass code 8 in the low nibble of byte 5), no buttons, triggers 0. -/
def idleReport32 : List ℕ :=
  [1, 128, 128, 128, 128, 8, 0, 0, 0, 0,
   0, 0, 0, 0, 0, 0, 0, 0, 0, 0,
   0, 0, 0, 0, 0, 0, 0, 0, 0, 0, 0, 0]

/-- A 32-byte report with battery byte 30 = 0x15. -/
def batteryReport15 : List ℕ :=
  [1, 128, 128, 128, 128, 8, 0, 0, 0, 0,
   0, 0, 0, 0, 0, 0, 0, 0, 0, 0,
   0, 0, 0, 0, 0, 0, 0, 0, 0, 0, 0x15, 0]

/-- A 32-byte report with byte 30 = 0 and byte 12 = 77. -/
def batteryReport77 : List ℕ :=
  [1, 128, 128, 128, 128, 8, 0, 0, 0, 0,
   0, 0, 77, 0, 0, 0, 0, 0, 0, 0,
   0, 0, 0, 0, 0, 0, 0, 0, 0, 0, 0, 0]

/-- 30 idle samples at the exact center. -/
def idle30 : List ℕ := List.replicate 30 128

/-- 30 samples with mean 140 and range 4. -/
def drift30 : List ℕ := List.replicate 15 138 ++ List.replicate 15 142

/-- A state about to run a first analysis pass: Left X drifting, the
other axes idle. -/
def driftStateA : TranslatorState :=
  { initialTranslator with
    samplesLx := drift30
    samplesLy := idle30
    samplesRx := idle30
    samplesRy := idle30
    driftSampleCount := 30 }

/-- A state about to run an analysis pass with every axis idle. -/
def idleDriftState : TranslatorState :=
  { initialTranslator with
    samplesLx := idle30
    samplesLy := idle30
    samplesRx := idle30
    samplesRy := idle30
    driftSampleCount := 30 }

/-- The state after the first analysis pass on `driftStateA`, refilled
for a second pass in which only Right X drifts. -/
def driftStateB : TranslatorState :=
  { (analyzeDriftSamples driftStateA).2 with
    samplesLx := idle30
    samplesLy := idle30
    samplesRx := drift30
    samplesRy := idle30
    driftSampleCount := 30 }

/-- A mid-sampling state with one accumulated sample per axis. -/
def midSamplingState : TranslatorState :=
  { initialTranslator with
    samplesLx := [130]
    samplesLy := [128]
    samplesRx := [128]
    samplesRy := [128]
    driftSampleCount := 1 }

/-! ## Helper lemmas -/

lemma calibFoldl_center (e : CalibEntry) (vs : List ℕ) :
    (vs.foldl calibStep e).center = e.center := by
  induction vs generalizing e with
  | nil => rfl
  | cons h t ih => rw [List.foldl_cons, ih]; rfl

lemma calibFoldl_min_le (e : CalibEntry) (vs : List ℕ) :
    (vs.foldl calibStep e).min ≤ e.min := by
  induction vs generalizing e with
  | nil => exact le_refl _
  | cons h t ih =>
      rw [List.foldl_cons]
      exact le_trans (ih (calibStep e h)) (Nat.min_le_left _ _)

lemma calibFoldl_le_max (e : CalibEntry) (vs : List ℕ) :
    e.max ≤ (vs.foldl calibStep e).max := by
  induction vs generalizing e with
  | nil => exact le_refl _
  | cons h t ih =>
      rw [List.foldl_cons]
      exact le_trans (Nat.le_max_left _ _) (ih (calibStep e h))

lemma calibFoldl_mem_bounds (e : CalibEntry) (vs : List ℕ) :
    ∀ v ∈ vs, (vs.foldl calibStep e).min ≤ v ∧ v ≤ (vs.foldl calibStep e).max := by
  induction vs generalizing e with
  | nil => intro v hv; cases hv
  | cons h t ih =>
      intro v hv
      rw [List.foldl_cons]
      rcases List.mem_cons.mp hv with rfl | hv
      · constructor
        · exact le_trans (calibFoldl_min_le (calibStep e v) t) (Nat.min_le_right _ _)
        · exact le_trans (Nat.le_max_right _ _) (calibFoldl_le_max (calibStep e v) t)
      · exact ih (calibStep e h) v hv

lemma stickScaled_center (c n p : ℤ) : stickScaled c c n p = 0 := by
  unfold stickScaled; simp

lemma stickDeadzone_ge (v c n p : ℤ) : (4000 : ℚ) ≤ stickDeadzone v c n p := le_max_left _ _

lemma applyDeadzone_zero (v c n p : ℤ) : applyDeadzone v c n p 0 = 0 := by
  unfold applyDeadzone
  rw [if_pos (lt_of_lt_of_le (by norm_num) (stickDeadzone_ge v c n p))]

lemma clampQ_zero : clampQ 0 = 0 := by unfold clampQ; norm_num

lemma ratTrunc_zero : ratTrunc 0 = 0 := by unfold ratTrunc; norm_num

lemma normalizeStick_center (calib : CalibEntry) (invert : Bool) :
    normalizeStick calib.center calib invert = 0 := by
  simp only [normalizeStick]
  rw [stickScaled_center, applyDeadzone_zero, clampQ_zero, ratTrunc_zero]
  cases invert <;> simp

lemma driftFlagged_iff (s : List ℕ) : driftFlagged s = true ↔ driftCriteria s := by
  have hq : ((s.length : ℚ) * (8 / 10) <
      ((max ((s.filter (fun v => 128 < v)).length) ((s.filter (fun v => v < 128)).length) : ℕ) : ℚ)) ↔
      4 * s.length < 5 * max ((s.filter (fun v => 128 < v)).length) ((s.filter (fun v => v < 128)).length) := by
    set a := max ((s.filter (fun v => 128 < v)).length) ((s.filter (fun v => v < 128)).length) with ha
    have hcast : ((s.length * 8 : ℕ) : ℚ) < ((a * 10 : ℕ) : ℚ) ↔ s.length * 8 < a * 10 :=
      Nat.cast_lt
    push_cast at hcast
    rw [← mul_div_assoc, div_lt_iff₀ (by norm_num : (0:ℚ) < 10), hcast]
    omega
  unfold driftFlagged driftCriteria
  by_cases h : s.length < 10
  · rw [if_pos h]
    simp only [Bool.false_eq_true, false_iff]
    rintro ⟨h10, -⟩
    omega
  · rw [if_neg h]
    simp only [Bool.and_eq_true, Bool.or_eq_true, decide_eq_true_eq]
    rw [hq]
    constructor
    · rintro ⟨h1, h2⟩
      exact ⟨by omega, h1, h2⟩
    · rintro ⟨-, h1, h2⟩
      exact ⟨h1, h2⟩

lemma driftFlagged_drift30 : driftFlagged drift30 = true := by
  rw [driftFlagged_iff]
  refine ⟨by decide, ?_, Or.inl (by decide)⟩
  have hsum : drift30.sum = 4200 := by decide
  have hlen : drift30.length = 30 := by decide
  have h12 : ((drift30.sum : ℚ) / (drift30.length : ℚ) - 128) = 12 := by
    rw [hsum, hlen]; norm_num
  rw [h12, abs_of_nonneg (by norm_num : (0:ℚ) ≤ 12)]
  norm_num

lemma driftFlagged_idle30 : driftFlagged idle30 = false := by
  rw [Bool.eq_false_iff, Ne, driftFlagged_iff]
  rintro ⟨-, hdev, -⟩
  have h0 : ((idle30.sum : ℚ) / (idle30.length : ℚ) - 128) = 0 := by
    have hsum : idle30.sum = 3840 := by decide
    have hlen : idle30.length = 30 := by decide
    rw [hsum, hlen]; norm_num
  rw [h0, abs_zero] at hdev
  norm_num at hdev

lemma axisList_mem (fLx fLy fRx fRy : Bool) :
    (Axis.lx ∈ (if fLx then [Axis.lx] else []) ++ (if fLy then [Axis.ly] else []) ++
        (if fRx then [Axis.rx] else []) ++ (if fRy then [Axis.ry] else []) ↔ fLx = true) ∧
    (Axis.ly ∈ (if fLx then [Axis.lx] else []) ++ (if fLy then [Axis.ly] else []) ++
        (if fRx then [Axis.rx] else []) ++ (if fRy then [Axis.ry] else []) ↔ fLy = true) ∧
    (Axis.rx ∈ (if fLx then [Axis.lx] else []) ++ (if fLy then [Axis.ly] else []) ++
        (if fRx then [Axis.rx] else []) ++ (if fRy then [Axis.ry] else []) ↔ fRx = true) ∧
    (Axis.ry ∈ (if fLx then [Axis.lx] else []) ++ (if fLy then [Axis.ly] else []) ++
        (if fRx then [Axis.rx] else []) ++ (if fRy then [Axis.ry] else []) ↔ fRy = true) := by
  cases fLx <;> cases fLy <;> cases fRx <;> cases fRy <;> decide

lemma ratTrunc_intCast (n : ℤ) : ratTrunc (n : ℚ) = n := by
  unfold ratTrunc
  by_cases h : ((n : ℚ)) < 0
  · rw [if_pos h, ← Int.cast_neg, Int.floor_intCast, neg_neg]
  · rw [if_neg h, Int.floor_intCast]

lemma stickScaled_one (v c : ℤ) (h : v ≠ c) :
    stickScaled v c 1 1 = ((v - c : ℤ) : ℚ) * 32767 := by
  unfold stickScaled
  rcases lt_or_gt_of_ne h with hlt | hgt
  · rw [if_neg (by omega), if_pos hlt]
    norm_num
  · rw [if_pos hgt]
    norm_num

lemma applyDeadzone_one (v c : ℤ) (h : v ≠ c) :
    applyDeadzone v c 1 1 (((v - c : ℤ) : ℚ) * 32767) = ((v - c : ℤ) : ℚ) * 32767 := by
  unfold applyDeadzone stickDeadzone
  have habs : (1 : ℤ) ≤ |v - c| := by
    rcases lt_or_gt_of_ne h with hlt | hgt
    · rw [abs_of_neg (by omega)]; omega
    · rw [abs_of_pos (by omega)]; omega
  have habs' : (1 : ℚ) ≤ ((|v - c| : ℤ) : ℚ) := by exact_mod_cast habs
  rw [if_neg]
  push_neg
  rw [abs_mul, abs_of_nonneg (by norm_num : (0:ℚ) ≤ (32767:ℚ)), ← Int.cast_abs]
  apply max_le
  · nlinarith
  · rw [show ((max (1:ℤ) 1 : ℤ) : ℚ) = 1 by norm_num, div_one]
    nlinarith

lemma clampQ_big (x : ℚ) (h : 32767 ≤ x) : clampQ x = 32767 := by
  unfold clampQ
  rw [min_eq_left h]
  exact max_eq_right (by norm_num)

lemma clampQ_small (x : ℚ) (h : x ≤ -32767) : clampQ x = -32767 := by
  unfold clampQ
  rw [min_eq_right (by linarith : x ≤ 32767)]
  exact max_eq_left h

lemma normalizeStick_uninvert (v : ℕ) (calib : CalibEntry) :
    normalizeStick v calib false =
      ratTrunc (clampQ (applyDeadzone v calib.center
        (max ((calib.center : ℤ) - (calib.min : ℤ)) 1)
        (max ((calib.max : ℤ) - (calib.center : ℤ)) 1)
        (stickScaled v calib.center
          (max ((calib.center : ℤ) - (calib.min : ℤ)) 1)
          (max ((calib.max : ℤ) - (calib.center : ℤ)) 1)))) := by
  simp only [normalizeStick, Bool.false_eq_true, if_false]

lemma sentinel_negRange : max ((sentinelEntry.center : ℤ) - (sentinelEntry.min : ℤ)) 1 = 1 := by
  norm_num [sentinelEntry]

lemma sentinel_posRange : max ((sentinelEntry.max : ℤ) - (sentinelEntry.center : ℤ)) 1 = 1 := by
  norm_num [sentinelEntry]

lemma stickScaled_pos_eq (v c n p : ℤ) (h : c < v) :
    stickScaled v c n p = ((v - c : ℤ) : ℚ) / ((p : ℤ) : ℚ) * 32767 := by
  unfold stickScaled; rw [if_pos h]

lemma stickScaled_neg_eq (v c n p : ℤ) (h : v < c) :
    stickScaled v c n p = ((v - c : ℤ) : ℚ) / ((n : ℤ) : ℚ) * 32767 := by
  unfold stickScaled; rw [if_neg (by omega), if_pos h]

lemma stickScaled_nonneg (v c n p : ℤ) (hp : 0 < p) (h : c ≤ v) :
    0 ≤ stickScaled v c n p := by
  rcases eq_or_lt_of_le h with rfl | hlt
  · rw [stickScaled_center]
  · rw [stickScaled_pos_eq _ _ _ _ hlt]
    have h1 : (0:ℚ) ≤ ((v - c : ℤ) : ℚ) := by exact_mod_cast (by omega : (0:ℤ) ≤ v - c)
    have h2 : (0:ℚ) ≤ ((p : ℤ) : ℚ) := by exact_mod_cast le_of_lt hp
    exact mul_nonneg (div_nonneg h1 h2) (by norm_num)

lemma stickScaled_nonpos (v c n p : ℤ) (hn : 0 < n) (h : v ≤ c) :
    stickScaled v c n p ≤ 0 := by
  rcases eq_or_lt_of_le h with rfl | hlt
  · rw [stickScaled_center]
  · rw [stickScaled_neg_eq _ _ _ _ hlt]
    have h1 : ((v - c : ℤ) : ℚ) ≤ 0 := by exact_mod_cast (by omega : (v - c : ℤ) ≤ 0)
    have h2 : (0:ℚ) ≤ ((n : ℤ) : ℚ) := by exact_mod_cast le_of_lt hn
    have h3 : ((v - c : ℤ) : ℚ) / ((n : ℤ) : ℚ) ≤ 0 := div_nonpos_of_nonpos_of_nonneg h1 h2
    nlinarith

lemma applyDeadzone_nonneg (v c n p : ℤ) (hp : 0 < p) (h : c ≤ v) :
    0 ≤ applyDeadzone v c n p (stickScaled v c n p) := by
  unfold applyDeadzone
  by_cases hz : |stickScaled v c n p| < stickDeadzone v c n p
  · rw [if_pos hz]
  · rw [if_neg hz]; exact stickScaled_nonneg v c n p hp h

lemma applyDeadzone_nonpos (v c n p : ℤ) (hn : 0 < n) (h : v ≤ c) :
    applyDeadzone v c n p (stickScaled v c n p) ≤ 0 := by
  unfold applyDeadzone
  by_cases hz : |stickScaled v c n p| < stickDeadzone v c n p
  · rw [if_pos hz]
  · rw [if_neg hz]; exact stickScaled_nonpos v c n p hn h

lemma stickDeadzone_le_pos (v c n p : ℤ) (hn : 1 ≤ n) (hp : 1 ≤ p) (hv : c < v)
    (h4 : (4000:ℚ) ≤ ((v - c : ℤ) : ℚ) / ((p : ℤ) : ℚ) * 32767) :
    stickDeadzone v c n p ≤ ((v - c : ℤ) : ℚ) / ((p : ℤ) : ℚ) * 32767 := by
  unfold stickDeadzone
  apply max_le h4
  rw [abs_of_pos (by omega : (0:ℤ) < v - c)]
  have hMp : ((p : ℤ) : ℚ) ≤ ((max n p : ℤ) : ℚ) := by
    exact_mod_cast (le_max_right n p)
  have hp' : (0:ℚ) < ((p : ℤ) : ℚ) := by exact_mod_cast (by omega : (0:ℤ) < p)
  have hM' : (0:ℚ) < ((max n p : ℤ) : ℚ) := lt_of_lt_of_le hp' hMp
  have hd : (0:ℚ) < ((v - c : ℤ) : ℚ) := by exact_mod_cast (by omega : (0:ℤ) < v - c)
  rw [← mul_div_assoc, div_mul_eq_mul_div, div_le_div_iff₀ hM' hp']
  nlinarith [mul_le_mul_of_nonneg_left hMp (le_of_lt hd), mul_pos hd hM']

lemma abs_stickScaled_neg (v c n p : ℤ) (hn : 0 < n) (hv : v < c) :
    |stickScaled v c n p| = ((c - v : ℤ) : ℚ) / ((n : ℤ) : ℚ) * 32767 := by
  rw [stickScaled_neg_eq _ _ _ _ hv]
  have hflip : -(((v - c : ℤ) : ℚ)) = ((c - v : ℤ) : ℚ) := by push_cast; ring
  have h1 : ((v - c : ℤ) : ℚ) ≤ 0 := by exact_mod_cast (by omega : (v - c : ℤ) ≤ 0)
  have h2 : (0:ℚ) ≤ ((n : ℤ) : ℚ) := by exact_mod_cast le_of_lt hn
  rw [abs_mul, abs_div, abs_of_nonpos h1, abs_of_nonneg h2,
    abs_of_nonneg (by norm_num : (0:ℚ) ≤ (32767:ℚ)), hflip]

lemma stickDeadzone_le_neg (v c n p : ℤ) (hn : 1 ≤ n) (hp : 1 ≤ p) (hv : v < c)
    (h4 : (4000:ℚ) ≤ ((c - v : ℤ) : ℚ) / ((n : ℤ) : ℚ) * 32767) :
    stickDeadzone v c n p ≤ ((c - v : ℤ) : ℚ) / ((n : ℤ) : ℚ) * 32767 := by
  unfold stickDeadzone
  apply max_le h4
  rw [abs_sub_comm, abs_of_pos (by omega : (0:ℤ) < c - v)]
  have hMn : ((n : ℤ) : ℚ) ≤ ((max n p : ℤ) : ℚ) := by
    exact_mod_cast (le_max_left n p)
  have hn' : (0:ℚ) < ((n : ℤ) : ℚ) := by exact_mod_cast (by omega : (0:ℤ) < n)
  have hM' : (0:ℚ) < ((max n p : ℤ) : ℚ) := lt_of_lt_of_le hn' hMn
  have hd : (0:ℚ) < ((c - v : ℤ) : ℚ) := by exact_mod_cast (by omega : (0:ℤ) < c - v)
  rw [← mul_div_assoc, div_mul_eq_mul_div, div_le_div_iff₀ hM' hn']
  nlinarith [mul_le_mul_of_nonneg_left hMn (le_of_lt hd), mul_pos hd hM']

lemma core_mono_pos (c n p v w : ℤ) (hn : 1 ≤ n) (hp : 1 ≤ p) (hv : c < v) (hvw : v ≤ w) :
    applyDeadzone v c n p (stickScaled v c n p) ≤
      applyDeadzone w c n p (stickScaled w c n p) := by
  have hw : c < w := lt_of_lt_of_le hv hvw
  have hp' : (0:ℚ) < ((p : ℤ) : ℚ) := by exact_mod_cast (by omega : (0:ℤ) < p)
  have hdvw : ((v - c : ℤ) : ℚ) ≤ ((w - c : ℤ) : ℚ) := by
    exact_mod_cast (by omega : (v - c : ℤ) ≤ (w - c : ℤ))
  have smono : stickScaled v c n p ≤ stickScaled w c n p := by
    rw [stickScaled_pos_eq _ _ _ _ hv, stickScaled_pos_eq _ _ _ _ hw]
    gcongr
  unfold applyDeadzone
  by_cases hzv : |stickScaled v c n p| < stickDeadzone v c n p
  · rw [if_pos hzv]
    have h0 := applyDeadzone_nonneg w c n p (by omega) (le_of_lt hw)
    unfold applyDeadzone at h0
    exact h0
  · rw [if_neg hzv]
    have hsv0 : 0 ≤ stickScaled v c n p := stickScaled_nonneg v c n p (by omega) (le_of_lt hv)
    have h4 : (4000:ℚ) ≤ stickScaled v c n p := by
      have := not_lt.mp hzv
      rw [abs_of_nonneg hsv0] at this
      exact le_trans (stickDeadzone_ge v c n p) this
    have h4w : (4000:ℚ) ≤ ((w - c : ℤ) : ℚ) / ((p : ℤ) : ℚ) * 32767 := by
      rw [stickScaled_pos_eq _ _ _ _ hv] at h4
      calc (4000:ℚ) ≤ ((v - c : ℤ) : ℚ) / ((p : ℤ) : ℚ) * 32767 := h4
        _ ≤ ((w - c : ℤ) : ℚ) / ((p : ℤ) : ℚ) * 32767 := by gcongr
    have hdzw : stickDeadzone w c n p ≤ stickScaled w c n p := by
      rw [stickScaled_pos_eq _ _ _ _ hw]
      exact stickDeadzone_le_pos w c n p hn hp hw h4w
    rw [if_neg (not_lt.mpr (le_trans hdzw (le_abs_self _)))]
    exact smono

lemma core_mono_neg (c n p v w : ℤ) (hn : 1 ≤ n) (hp : 1 ≤ p) (hw : w < c) (hvw : v ≤ w) :
    applyDeadzone v c n p (stickScaled v c n p) ≤
      applyDeadzone w c n p (stickScaled w c n p) := by
  have hv : v < c := lt_of_le_of_lt hvw hw
  have hn' : (0:ℚ) < ((n : ℤ) : ℚ) := by exact_mod_cast (by omega : (0:ℤ) < n)
  have hdvw : ((v - c : ℤ) : ℚ) ≤ ((w - c : ℤ) : ℚ) := by
    exact_mod_cast (by omega : (v - c : ℤ) ≤ (w - c : ℤ))
  have smono : stickScaled v c n p ≤ stickScaled w c n p := by
    rw [stickScaled_neg_eq _ _ _ _ hv, stickScaled_neg_eq _ _ _ _ hw]
    gcongr
  unfold applyDeadzone
  by_cases hzw : |stickScaled w c n p| < stickDeadzone w c n p
  · rw [if_pos hzw]
    have h0 := applyDeadzone_nonpos v c n p (by omega) (le_of_lt hv)
    unfold applyDeadzone at h0
    exact h0
  · rw [if_neg hzw]
    have habsw := abs_stickScaled_neg w c n p (by omega) hw
    have habsv := abs_stickScaled_neg v c n p (by omega) hv
    have h4 : (4000:ℚ) ≤ ((c - w : ℤ) : ℚ) / ((n : ℤ) : ℚ) * 32767 := by
      have := not_lt.mp hzw
      rw [habsw] at this
      exact le_trans (stickDeadzone_ge w c n p) this
    have h4v : (4000:ℚ) ≤ ((c - v : ℤ) : ℚ) / ((n : ℤ) : ℚ) * 32767 := by
      calc (4000:ℚ) ≤ ((c - w : ℤ) : ℚ) / ((n : ℤ) : ℚ) * 32767 := h4
        _ ≤ ((c - v : ℤ) : ℚ) / ((n : ℤ) : ℚ) * 32767 := by gcongr
    have hdzv : stickDeadzone v c n p ≤ |stickScaled v c n p| := by
      rw [habsv]
      exact stickDeadzone_le_neg v c n p hn hp hv h4v
    rw [if_neg (not_lt.mpr hdzv)]
    exact smono

lemma ratTrunc_mono (x y : ℚ) (h : x ≤ y) : ratTrunc x ≤ ratTrunc y := by
  unfold ratTrunc
  by_cases hx : x < 0
  · by_cases hy : y < 0
    · rw [if_pos hx, if_pos hy]
      have hf : ⌊-y⌋ ≤ ⌊-x⌋ := Int.floor_le_floor (by linarith)
      omega
    · rw [if_pos hx, if_neg hy]
      have hx0 : 0 ≤ ⌊-x⌋ := Int.floor_nonneg.mpr (by linarith)
      have hy0 : 0 ≤ ⌊y⌋ := Int.floor_nonneg.mpr (by linarith [not_lt.mp hy])
      omega
  · rw [if_neg hx, if_neg (by linarith [not_lt.mp hx] : ¬(y < 0))]
    exact Int.floor_le_floor h

lemma clampQ_mono (x y : ℚ) (h : x ≤ y) : clampQ x ≤ clampQ y := by
  unfold clampQ
  exact max_le_max (le_refl _) (min_le_min (le_refl _) h)

/-! ## Claim theorems -/

/-- C1: for every raw byte, every center-128 calibration entry and every
invert flag, `_normalize_stick` computes exactly the formula of the spec
(scale by the clamped range denominators, zero below the adaptive
deadzone, clamp to `[-32767, 32767]`, truncate, negate on invert); in
particular the center byte 128 always normalizes to 0. -/
theorem stick_normalizer_matches_spec :
    (∀ (v mn mx : ℕ) (invert : Bool),
        normalizeStick v ⟨mn, mx, 128⟩ invert = specNormalize v mn mx invert) ∧
    ∀ mn mx : ℕ, normalizeStick 128 ⟨mn, mx, 128⟩ false = 0 := by
  constructor
  · intro v mn mx invert
    simp only [normalizeStick, specNormalize, stickScaled, applyDeadzone, stickDeadzone, clampQ]
  · intro mn mx
    exact normalizeStick_center ⟨mn, mx, 128⟩ false

/-- C2: decoding the D-pad compass code (low 4 bits of report byte 5)
sets exactly these directional flags (DPAD_UP=0x0001, DPAD_DOWN=0x0002,
DPAD_LEFT=0x0004, DPAD_RIGHT=0x0008): 0→Up; 1→Up+Right; 2→Right;
3→Right+Down; 4→Down; 5→Down+Left; 6→Left; 7→Left+Up; 8 or any larger
code sets no D-pad flag. -/
theorem dpad_decode_table :
    dpadFlags 0 = 0x0001 ∧
    dpadFlags 1 = 0x0001 ||| 0x0008 ∧
    dpadFlags 2 = 0x0008 ∧
    dpadFlags 3 = 0x0008 ||| 0x0002 ∧
    dpadFlags 4 = 0x0002 ∧
    dpadFlags 5 = 0x0002 ||| 0x0004 ∧
    dpadFlags 6 = 0x0004 ∧
    dpadFlags 7 = 0x0004 ||| 0x0001 ∧
    ∀ code : ℕ, 8 ≤ code → dpadFlags code = 0 := by
  refine ⟨by decide, by decide, by decide, by decide, by decide, by decide, by decide, by decide,
    ?_⟩
  intro code h
  unfold dpadFlags
  rw [if_neg (by omega), if_neg (by omega), if_neg (by omega), if_neg (by omega)]
  decide

/-- Witness for C2 at the concrete released code 8 and at 15. -/
theorem dpad_decode_table_witness : (8 : ℕ) ≤ 8 ∧ dpadFlags 8 = 0 ∧ dpadFlags 15 = 0 :=
  ⟨by decide, dpad_decode_table.2.2.2.2.2.2.2.2 8 (by decide),
    dpad_decode_table.2.2.2.2.2.2.2.2 15 (by decide)⟩

/-- C5: a call to `translate` with a report shorter than 32 bytes (the
empty report included) returns the previous `OutputReport` bit-for-bit
unchanged, modifies nothing (the whole state is returned intact), and
raises nothing (the function is total). -/
theorem short_report_returns_previous :
    ∀ (st : TranslatorState) (now : ℚ) (r : List ℕ), r.length < 32 →
      translateFn st now r = (st, some st.xinputReport) := by
  intro st now r h
  unfold translateFn
  rw [if_pos h]

/-- Witness for C5 on the empty report from the initial state. -/
theorem short_report_returns_previous_witness :
    ([] : List ℕ).length < 32 ∧
      translateFn initialTranslator 0 [] = (initialTranslator, some initXInputReport) :=
  ⟨by decide, short_report_returns_previous initialTranslator 0 [] (by decide)⟩

/-- C6 counterexample: while calibrating, a short (here: empty) report
makes `translate` return the previous report, not `none`, so the claim
as stated (for every report received during calibration) fails. -/
theorem translate_calibrating_counterexample :
    ({ initialTranslator with isCalibrating := true } : TranslatorState).isCalibrating = true ∧
      (translateFn { initialTranslator with isCalibrating := true } 0 []).2 ≠ none := by
  constructor
  · rfl
  · have h : (translateFn { initialTranslator with isCalibrating := true } 0 []).2 =
        some initXInputReport := rfl
    rw [h]
    exact Option.some_ne_none _

/-- C6 (amended): for every report of at least 32 bytes delivered while
the translator is calibrating, `translate` returns no output report. -/
theorem translate_during_calibration_none :
    ∀ (st : TranslatorState) (now : ℚ) (r : List ℕ),
      st.isCalibrating = true → 32 ≤ r.length → (translateFn st now r).2 = none := by
  intro st now r hcal hlen
  unfold translateFn
  rw [if_neg (by omega), if_pos hcal]

/-- Witness for C6 on a full 32-byte report right after `start_calibration`. -/
theorem translate_during_calibration_none_witness :
    (startCalibration initialTranslator).isCalibrating = true ∧
      32 ≤ idleReport32.length ∧
      (translateFn (startCalibration initialTranslator) 0 idleReport32).2 = none :=
  ⟨rfl, by decide,
    translate_during_calibration_none (startCalibration initialTranslator) 0 idleReport32 rfl
      (by decide)⟩

/-- C7: on a full-length report, battery extraction yields: if byte 30 is
nonzero, charging is bit 4 (0x10) of byte 30 and the level is the low
nibble times 10 clamped to `[0,100]` when that nibble is at most 10,
otherwise the nibble clamped to 100; if byte 30 is zero and byte 12 is
nonzero, the level is byte 12 clamped to `[0,100]` with charging false;
if both are zero, the default status (50, not charging); the extraction
is total, never failing. -/
theorem battery_extraction_spec :
    ∀ r : List ℕ, 31 ≤ r.length →
      (r.getD 30 0 ≠ 0 →
        extractBatteryInfo r =
          ⟨if r.getD 30 0 &&& 0x0F ≤ 10 then min 100 ((r.getD 30 0 &&& 0x0F) * 10)
              else min 100 (r.getD 30 0 &&& 0x0F),
            r.getD 30 0 &&& 0x10 != 0⟩) ∧
      (r.getD 30 0 = 0 → r.getD 12 0 ≠ 0 →
        extractBatteryInfo r = ⟨min 100 (r.getD 12 0), false⟩) ∧
      (r.getD 30 0 = 0 → r.getD 12 0 = 0 → extractBatteryInfo r = ⟨50, false⟩) := by
  intro r hlen
  have hlen13 : 13 ≤ r.length := by omega
  refine ⟨?_, ?_, ?_⟩
  · intro h30
    unfold extractBatteryInfo
    rw [if_pos hlen, if_pos h30]
    simp
  · intro h30 h12
    unfold extractBatteryInfo extractBatteryAlt
    rw [if_pos hlen, if_neg (not_not_intro h30), if_pos hlen13, if_pos h12]
    simp
  · intro h30 h12
    unfold extractBatteryInfo extractBatteryAlt
    rw [if_pos hlen, if_neg (not_not_intro h30), if_pos hlen13, if_neg (not_not_intro h12)]

/-- Witness for C7 on the three concrete example reports: byte30=0x15
gives (50, charging); byte30=0, byte12=77 gives (77, not charging);
both zero gives the (50, not charging) default. -/
theorem battery_extraction_spec_witness :
    extractBatteryInfo batteryReport15 = ⟨50, true⟩ ∧
      extractBatteryInfo batteryReport77 = ⟨77, false⟩ ∧
      extractBatteryInfo idleReport32 = ⟨50, false⟩ := by
  refine ⟨?_, ?_, ?_⟩
  · rw [(battery_extraction_spec batteryReport15 (by decide)).1 (by decide)]
    decide
  · rw [(battery_extraction_spec batteryReport77 (by decide)).2.1 (by decide) (by decide)]
    decide
  · rw [(battery_extraction_spec idleReport32 (by decide)).2.2 (by decide) (by decide)]

/-- C9 counterexample: a single calibration sample of 200 on an axis
gives the entry min=200, max=200, violating `min ≤ 128` although a
sample has been recorded. -/
theorem calibration_entry_counterexample :
    calibFold [200] = ⟨200, 200, 128⟩ ∧ ¬((calibFold [200]).min ≤ 128) := by
  constructor
  · decide
  · decide

/-- C9 (amended): before any sample the entry is the sentinel min=255,
max=0, center=128; after any sequence of samples the center is still
128 and every recorded sample v satisfies min ≤ v ≤ max; consequently
min ≤ 128 ≤ max holds provided some sample is at most 128 and some
sample is at least 128 (but not unconditionally, as the counterexample
shows). -/
theorem calibration_entry_invariant :
    calibFold [] = sentinelEntry ∧
    ∀ vs : List ℕ,
      (calibFold vs).center = 128 ∧
      (∀ v ∈ vs, (calibFold vs).min ≤ v ∧ v ≤ (calibFold vs).max) ∧
      ((∃ v ∈ vs, v ≤ 128) → (∃ w ∈ vs, 128 ≤ w) →
        (calibFold vs).min ≤ 128 ∧ 128 ≤ (calibFold vs).max) := by
  refine ⟨rfl, fun vs => ⟨?_, ?_, ?_⟩⟩
  · exact calibFoldl_center sentinelEntry vs
  · exact calibFoldl_mem_bounds sentinelEntry vs
  · rintro ⟨v, hv, hv128⟩ ⟨w, hw, hw128⟩
    exact ⟨le_trans (calibFoldl_mem_bounds sentinelEntry vs v hv).1 hv128,
      le_trans hw128 (calibFoldl_mem_bounds sentinelEntry vs w hw).2⟩

/-- C4: code bug exhibited at a concrete eligible tick. `idleReport32`
is a fully idle report — D-pad nibble holds the released code 8 (which
the decoder itself maps to no flags), no face, shoulder or special
button bits, triggers 0 — yet `_check_for_drift` discards all four
accumulated sample buffers instead of appending the idle stick bytes,
because its activity test `hid_report[5] != 0` treats the released
D-pad code 8 as a pressed button. -/
theorem drift_sampling_discarded_on_released_dpad :
    idleReport32.getD 5 0 = 8 ∧
    dpadFlags (idleReport32.getD 5 0 &&& 0x0F) = 0 ∧
    faceFlags (idleReport32.getD 5 0) = 0 ∧
    shoulderFlags (idleReport32.getD 6 0) = 0 ∧
    specialFlags (idleReport32.getD 6 0) = 0 ∧
    idleReport32.getD 8 0 = 0 ∧ idleReport32.getD 9 0 = 0 ∧
    (checkForDrift midSamplingState 1 idleReport32).samplesLx = [] ∧
    (checkForDrift midSamplingState 1 idleReport32).samplesLy = [] ∧
    (checkForDrift midSamplingState 1 idleReport32).samplesRx = [] ∧
    (checkForDrift midSamplingState 1 idleReport32).samplesRy = [] ∧
    (checkForDrift midSamplingState 1 idleReport32).driftSampleCount = 0 := by
  have heval : ∀ f : TranslatorState → List ℕ,
      f (checkForDrift midSamplingState 1 idleReport32) =
        f { { midSamplingState with lastDriftCheck := 1 } with
            driftSampleCount := 0
            samplesLx := []
            samplesLy := []
            samplesRx := []
            samplesRy := [] } := by
    intro f
    simp only [checkForDrift]
    rw [if_neg (by decide), if_neg (by norm_num [midSamplingState, initialTranslator]),
      if_pos (by decide)]
  refine ⟨by decide, by decide, by decide, by decide, by decide, by decide, by decide,
    heval (·.samplesLx), heval (·.samplesLy), heval (·.samplesRx), heval (·.samplesRy), ?_⟩
  have heval2 : (checkForDrift midSamplingState 1 idleReport32).driftSampleCount = 0 := by
    simp only [checkForDrift]
    rw [if_neg (by decide), if_neg (by norm_num [midSamplingState, initialTranslator]),
      if_pos (by decide)]
  exact heval2

/-- Witness for C9 (amended) on the sample sequence [120, 130]. -/
theorem calibration_entry_invariant_witness :
    (calibFold [120, 130]).min ≤ 128 ∧ 128 ≤ (calibFold [120, 130]).max :=
  (calibration_entry_invariant.2 [120, 130]).2.2 ⟨120, by decide, by decide⟩
    ⟨130, by decide, by decide⟩

/-- C3 (amended): in every analysis pass, an axis with at least 10
samples is flagged iff `|mean - 128| > 8` and (range < 6 or more than 80
percent of samples on one side of 128); `hasDrift` is true iff some axis
is flagged; sample buffers and the counter are cleared; but the severity
level is computed from the cumulative set `drift_detected_axes` of axes
ever flagged (persisted across passes, `None` when this pass flags no
axis) — not from the count of this pass alone. The concrete single-pass
examples: Left X alone with mean 140, range 4 over 30 samples yields
hasDrift, driftAxes=[LeftX], severity Mild; all-centered samples yield
no drift. -/
theorem drift_analysis_characterization :
    (∀ st : TranslatorState,
      ((analyzeDriftSamples st).1.hasDrift = true ↔ (analyzeDriftSamples st).1.driftAxes ≠ []) ∧
      (Axis.lx ∈ (analyzeDriftSamples st).1.driftAxes ↔ driftCriteria st.samplesLx) ∧
      (Axis.ly ∈ (analyzeDriftSamples st).1.driftAxes ↔ driftCriteria st.samplesLy) ∧
      (Axis.rx ∈ (analyzeDriftSamples st).1.driftAxes ↔ driftCriteria st.samplesRx) ∧
      (Axis.ry ∈ (analyzeDriftSamples st).1.driftAxes ↔ driftCriteria st.samplesRy) ∧
      ((analyzeDriftSamples st).1.severity =
        if (analyzeDriftSamples st).1.hasDrift then
          severityOfCount (detectedCount (analyzeDriftSamples st).2)
        else Severity.none) ∧
      (analyzeDriftSamples st).2.samplesLx = [] ∧ (analyzeDriftSamples st).2.samplesLy = [] ∧
      (analyzeDriftSamples st).2.samplesRx = [] ∧ (analyzeDriftSamples st).2.samplesRy = [] ∧
      (analyzeDriftSamples st).2.driftSampleCount = 0) ∧
    (analyzeDriftSamples driftStateA).1 = ⟨true, [Axis.lx], Severity.mild⟩ ∧
    (analyzeDriftSamples idleDriftState).1 = ⟨false, [], Severity.none⟩ := by
  refine ⟨?_, ?_, ?_⟩
  · intro st
    refine ⟨?_, ?_, ?_, ?_, ?_, ?_, ?_, ?_, ?_, ?_, ?_⟩
    · simp only [analyzeDriftSamples]
      simp [List.isEmpty_iff]
    · simp only [analyzeDriftSamples]
      rw [(axisList_mem _ _ _ _).1]
      exact driftFlagged_iff _
    · simp only [analyzeDriftSamples]
      rw [(axisList_mem _ _ _ _).2.1]
      exact driftFlagged_iff _
    · simp only [analyzeDriftSamples]
      rw [(axisList_mem _ _ _ _).2.2.1]
      exact driftFlagged_iff _
    · simp only [analyzeDriftSamples]
      rw [(axisList_mem _ _ _ _).2.2.2]
      exact driftFlagged_iff _
    · simp only [analyzeDriftSamples, detectedCount]
    · rfl
    · rfl
    · rfl
    · rfl
    · rfl
  · simp [analyzeDriftSamples, driftStateA, initialTranslator, driftFlagged_drift30,
      driftFlagged_idle30, detectedCount, severityOfCount]
  · simp [analyzeDriftSamples, idleDriftState, initialTranslator, driftFlagged_idle30,
      detectedCount, severityOfCount]

/-- C3 counterexample: a second analysis pass in which only Right X is
flagged reports severity Moderate, not Mild, because the severity is
derived from the persisted cumulative set of detected axes (Left X from
the first pass plus Right X), contradicting the claim that severity
follows the number of axes flagged in that pass. -/
theorem drift_severity_counterexample :
    (analyzeDriftSamples driftStateB).1.driftAxes = [Axis.rx] ∧
    (analyzeDriftSamples driftStateB).1.severity = Severity.moderate := by
  constructor
  · simp [analyzeDriftSamples, driftStateB, driftStateA, initialTranslator,
      driftFlagged_drift30, driftFlagged_idle30]
  · simp [analyzeDriftSamples, driftStateB, driftStateA, initialTranslator,
      driftFlagged_drift30, driftFlagged_idle30, detectedCount, severityOfCount]

/-- C10: with the sentinel entry min=255, max=0, center=128 — installed
for every axis both at construction and by `start_calibration` — both
range denominators clamp to 1, so with invert=false every raw byte above
128 normalizes to exactly +32767, every byte below 128 to exactly
-32767, and 128 to 0: the adaptive deadzone never zeroes these outputs
and an uncalibrated stick acts as a full-scale digital axis. -/
theorem uncalibrated_sticks_full_scale :
    initialTranslator.calibLx = sentinelEntry ∧ initialTranslator.calibLy = sentinelEntry ∧
    initialTranslator.calibRx = sentinelEntry ∧ initialTranslator.calibRy = sentinelEntry ∧
    (∀ st : TranslatorState,
      (startCalibration st).calibLx = sentinelEntry ∧
      (startCalibration st).calibLy = sentinelEntry ∧
      (startCalibration st).calibRx = sentinelEntry ∧
      (startCalibration st).calibRy = sentinelEntry) ∧
    ∀ v : Fin 256,
      normalizeStick v.val sentinelEntry false =
        if 128 < v.val then 32767 else if v.val < 128 then -32767 else 0 := by
  refine ⟨rfl, rfl, rfl, rfl, fun st => ⟨rfl, rfl, rfl, rfl⟩, ?_⟩
  intro v
  have hc : (sentinelEntry.center : ℤ) = 128 := by norm_num [sentinelEntry]
  rcases Nat.lt_trichotomy v.val 128 with hlt | heq | hgt
  · have hltz : (v.val : ℤ) < 128 := by exact_mod_cast hlt
    have hzne : (v.val : ℤ) ≠ (sentinelEntry.center : ℤ) := by omega
    rw [if_neg (by omega), if_pos hlt, normalizeStick_uninvert, sentinel_negRange,
      sentinel_posRange, stickScaled_one _ _ hzne, applyDeadzone_one _ _ hzne]
    have hd : ((v.val : ℤ) - sentinelEntry.center) ≤ -1 := by omega
    have hdq : (((v.val : ℤ) - (sentinelEntry.center : ℤ) : ℤ) : ℚ) ≤ -1 := by exact_mod_cast hd
    rw [clampQ_small _ (by nlinarith)]
    norm_num [ratTrunc]
  · rw [if_neg (by omega), if_neg (by omega)]
    have h0 : v.val = sentinelEntry.center := heq
    rw [h0]
    exact normalizeStick_center sentinelEntry false
  · have hgtz : (128 : ℤ) < (v.val : ℤ) := by exact_mod_cast hgt
    have hzne : (v.val : ℤ) ≠ (sentinelEntry.center : ℤ) := by omega
    rw [if_pos hgt, normalizeStick_uninvert, sentinel_negRange,
      sentinel_posRange, stickScaled_one _ _ hzne, applyDeadzone_one _ _ hzne]
    have hd : (1 : ℤ) ≤ ((v.val : ℤ) - sentinelEntry.center) := by omega
    have hdq : (1 : ℚ) ≤ (((v.val : ℤ) - (sentinelEntry.center : ℤ) : ℤ) : ℚ) := by exact_mod_cast hd
    rw [clampQ_big _ (by nlinarith)]
    norm_num [ratTrunc]

/-- C8: for every calibration entry with min < 128 < max and
invert = false, `_normalize_stick` is monotone non-decreasing in the raw
byte value; the deadzone flattening around the center does not break
monotonicity. -/
theorem normalize_monotone (mn mx a b : ℕ) (hmn : mn < 128) (hmx : 128 < mx) (hab : a ≤ b) :
    normalizeStick a ⟨mn, mx, 128⟩ false ≤ normalizeStick b ⟨mn, mx, 128⟩ false := by
  rw [normalizeStick_uninvert, normalizeStick_uninvert]
  apply ratTrunc_mono
  apply clampQ_mono
  have hn : (1:ℤ) ≤ max (((⟨mn, mx, 128⟩ : CalibEntry).center : ℤ) - ((⟨mn, mx, 128⟩ : CalibEntry).min : ℤ)) 1 :=
    le_max_right _ _
  have hp : (1:ℤ) ≤ max (((⟨mn, mx, 128⟩ : CalibEntry).max : ℤ) - ((⟨mn, mx, 128⟩ : CalibEntry).center : ℤ)) 1 :=
    le_max_right _ _
  have habz : (a : ℤ) ≤ (b : ℤ) := by exact_mod_cast hab
  by_cases h1 : ((⟨mn, mx, 128⟩ : CalibEntry).center : ℤ) < (a : ℤ)
  · exact core_mono_pos _ _ _ _ _ hn hp h1 habz
  · by_cases h2 : (b : ℤ) < ((⟨mn, mx, 128⟩ : CalibEntry).center : ℤ)
    · exact core_mono_neg _ _ _ _ _ hn hp h2 habz
    · exact le_trans
        (applyDeadzone_nonpos _ _ _ _ (by omega) (not_lt.mp h1))
        (applyDeadzone_nonneg _ _ _ _ (by omega) (not_lt.mp h2))

/-- Witness for C8 at the concrete calibration min=20, max=230 and
bytes 100 and 200. -/
theorem normalize_monotone_witness :
    20 < 128 ∧ 128 < 230 ∧ 100 ≤ 200 ∧
      normalizeStick 100 ⟨20, 230, 128⟩ false ≤ normalizeStick 200 ⟨20, 230, 128⟩ false :=
  ⟨by decide, by decide, by decide, normalize_monotone 20 230 100 200 (by decide) (by decide) (by decide)⟩

end LazyDS4
